import Mathlib

/-!
Verification of the Spotseat thermal seat finder (src/thermal_seat_finder.py).

The source is a single MicroPython main loop.  We embed its pure content
shallowly:

* a raw frame is a `List ℕ` of byte values (Python `bytes`);
* the header/checksum validation of lines 59-77 becomes `validate`;
* the temperature parsing of lines 85-88 becomes `decodeTemp`;
* the single-pass min/max/occupancy scan of lines 81-98 becomes `scan`
  (a fold of `scanStep` over pixel indices);
* the vibration debounce of lines 105-113 becomes `onCycle`, with the
  monotonic millisecond clock modelled as `ℤ` and `time.ticks_diff`
  as subtraction;
* the grayscale normalisation of lines 116-124 becomes `adjustSpan` and
  `pixelVal`, with Python `float` arithmetic modelled exactly as `ℚ`
  and Python `int()` (truncation toward zero) as `pyInt`;
* the hottest-pixel overlay of lines 138-145 becomes `hottestOverlay`;
* the per-iteration control flow (lines 48-77) becomes `cycleOutcome`
  and `runCycle`.
-/

namespace ThermalSeatFinder

/-- Source line 18: frame header flag byte. -/
def START_FLAG : ℕ := 0x5A

/-- Source line 19. -/
def SENSOR_WIDTH : ℕ := 32

/-- Source line 20. -/
def SENSOR_HEIGHT : ℕ := 24

/-- Source line 21. -/
def LCD_W : ℕ := 160

/-- Source line 22. -/
def LCD_H : ℕ := 120

/-- Source line 23 (used in `ℚ` comparisons with temperatures). -/
def MAX_TEMP_LIMIT : ℚ := 300

/-- Source line 24. -/
def MIN_TEMP_LIMIT : ℚ := 0

/-- Source line 25. -/
def PERSON_TEMP_THRESHOLD : ℚ := 30

/-- Source line 26, as a millisecond count on the `ℤ`-modelled clock. -/
def VIBRATION_INTERVAL_MS : ℤ := 500

/-- Source line 54: a full frame is 1544 bytes. -/
def FRAME_LEN : ℕ := 1544

/-- Source line 70: `(frame[i+1] << 8) | frame[i]`.  Out-of-range reads
default to 0, matching the fact that the source only evaluates this on
indices backed by a full 1544-byte frame. -/
def word16 (f : List ℕ) (i : ℕ) : ℕ := (f.getD (i + 1) 0 <<< 8) ||| f.getD i 0

/-- Source lines 68-71: 16-bit running sum, masked with `& 0xFFFF`, of the
little-endian words at byte offsets 0, 2, ..., 1540, i.e. Python
`range(0, 1542, 2)`. -/
def checksum (f : List ℕ) : ℕ :=
  (List.range 771).foldl (fun acc j => (acc + word16 f (2 * j)) &&& 0xFFFF) 0

/-- Source line 72: `(frame[1543] << 8) | frame[1542]`. -/
def recvSum (f : List ℕ) : ℕ := (f.getD 1543 0 <<< 8) ||| f.getD 1542 0

/-- Python `int.from_bytes(f[i:i+2], 'little')`: the value of the two-byte
little-endian field at offset `i`. -/
def fromBytesLE2 (f : List ℕ) (i : ℕ) : ℕ := f.getD i 0 + 256 * f.getD (i + 1) 0

/-- Error taxonomy of spec section 7. -/
inductive RejectReason where
  | NoData | IncompleteFrame | InvalidHeader | ChecksumMismatch
deriving DecidableEq

/-- Result of validating one frame (spec section 4.2). -/
inductive ValidationResult where
  | Accepted
  | Rejected (reason : RejectReason)
deriving DecidableEq

/-- Source lines 59-77: header check (line 60), then checksum check
(lines 67-75).  Each failing check abandons the cycle via `continue`,
which we model as the corresponding `Rejected` outcome. -/
def validate (f : List ℕ) : ValidationResult :=
  if f.getD 0 0 ≠ START_FLAG ∨ f.getD 1 0 ≠ START_FLAG then
    .Rejected .InvalidHeader
  else if checksum f ≠ recvSum f then
    .Rejected .ChecksumMismatch
  else
    .Accepted

/-- Source lines 86-87: temperature of pixel `idx`, the little-endian
16-bit value at byte offset `4 + 2*idx` divided by 100.0. -/
def decodeTemp (f : List ℕ) (idx : ℕ) : ℚ := (fromBytesLE2 f (4 + 2 * idx) : ℚ) / 100

/-- The per-cycle detection state of source lines 81-83. -/
structure ScanState where
  min_temp : ℚ
  max_temp : ℚ
  max_pos : Option (ℕ × ℕ)
  person_detected : Bool
deriving DecidableEq

/-- Source lines 81-83: `min_temp, max_temp = MAX_TEMP_LIMIT, MIN_TEMP_LIMIT`,
`max_pos = None`, `person_detected = False`. -/
def initScanState : ScanState :=
  { min_temp := MAX_TEMP_LIMIT, max_temp := MIN_TEMP_LIMIT
    max_pos := none, person_detected := false }

/-- Source lines 91-98: processing of one pixel value `temp_c` at index
`idx` inside the scan loop. -/
def scanStep (temp_c : ℚ) (idx : ℕ) (s : ScanState) : ScanState :=
  let s1 := if temp_c < s.min_temp then
    { s with min_temp := max temp_c MIN_TEMP_LIMIT } else s
  if temp_c > s1.max_temp then
    { s1 with
      max_temp := min temp_c MAX_TEMP_LIMIT
      max_pos := some (idx % SENSOR_WIDTH, idx / SENSOR_WIDTH)
      person_detected :=
        if temp_c > PERSON_TEMP_THRESHOLD then true else s1.person_detected }
  else s1

/-- The scan loop of source lines 85-98 restricted to the first `n` pixel
indices (`scanPrefix temps 768` is the full loop). -/
def scanPrefix (temps : ℕ → ℚ) (n : ℕ) : ScanState :=
  (List.range n).foldl (fun s idx => scanStep (temps idx) idx s) initScanState

/-- Source lines 85-98: the full single-pass scan over all
`SENSOR_WIDTH * SENSOR_HEIGHT = 768` pixels. -/
def scan (temps : ℕ → ℚ) : ScanState :=
  scanPrefix temps (SENSOR_WIDTH * SENSOR_HEIGHT)

/-- Source line 45: `last_vibration = time.ticks_ms()` at startup. -/
def initLast (t0 : ℤ) : ℤ := t0

/-- Source lines 106-112: the debounced vibration trigger.  Returns
(whether a pulse was emitted this cycle, the new `last_vibration`). -/
def onCycle (person_detected : Bool) (now last : ℤ) : Bool × ℤ :=
  if person_detected then
    if now - last > VIBRATION_INTERVAL_MS then (true, now) else (false, last)
  else (false, last)

/-- Source lines 117-118: if `max_temp == min_temp`, bump `max_temp` to
`min_temp + 1` to avoid a zero span. -/
def adjustSpan (s : ScanState) : ScanState :=
  if s.max_temp = s.min_temp then { s with max_temp := s.min_temp + 1 } else s

/-- Python `int()` applied to a real number: truncation toward zero. -/
def pyInt (q : ℚ) : ℤ := if q.num < 0 then -(-q).floor else q.floor

/-- Source line 122: the cell of the temperature list rendered at grid
position `(x, y)` is `temps[y*SENSOR_WIDTH + x]`. -/
def gridCell (temps : ℕ → ℚ) (x y : ℕ) : ℚ := temps (y * SENSOR_WIDTH + x)

/-- Source lines 122-123: the grayscale value written for the cell at
`(x, y)`, `int((t - min_temp) / (max_temp - min_temp) * 255)`. -/
def pixelVal (temps : ℕ → ℚ) (min_temp max_temp : ℚ) (x y : ℕ) : ℤ :=
  pyInt ((gridCell temps x y - min_temp) / (max_temp - min_temp) * 255)

/-- The decoded temperature list of a frame, as a function of pixel
index (source lines 85-88). -/
def frameTemps (f : List ℕ) : ℕ → ℚ := fun i => decodeTemp f i

/-- The detection state a frame reaches at the renderer: the scan of
lines 85-98 followed by the span adjustment of lines 117-118. -/
def frameSpan (f : List ℕ) : ScanState := adjustSpan (scan (frameTemps f))

/-- The grayscale value displayed for cell `(x, y)` of a frame: the scan
of lines 85-98, the span adjustment of lines 117-118, then the
normalisation of lines 122-123. -/
def displayVal (f : List ℕ) (x y : ℕ) : ℤ :=
  pixelVal (frameTemps f) (frameSpan f).min_temp (frameSpan f).max_temp x y

/-- The formula claimed by the spec for the grayscale value:
`round(255 * (t - min) / (max - min))` clamped to [0, 255].  This is the
spec's wording, kept separate from `pixelVal` (the source's behaviour) so
the two can be compared. -/
def specPixelVal (t min_temp max_temp : ℚ) : ℤ :=
  max 0 (min 255 (round (255 * (t - min_temp) / (max_temp - min_temp))))

/-- Source lines 139-145: if a hottest pixel was recorded, its overlay is
anchored at `(int(LCD_W/SENSOR_WIDTH * x), int(LCD_H/SENSOR_HEIGHT * y))`
and labels the (span-adjusted) `max_temp`, printed with one decimal. -/
def hottestOverlay (s : ScanState) : Option (ℤ × ℤ × ℚ) :=
  match s.max_pos with
  | none => none
  | some (x, y) =>
      some (pyInt ((LCD_W : ℚ) / (SENSOR_WIDTH : ℚ) * x),
            pyInt ((LCD_H : ℚ) / (SENSOR_HEIGHT : ℚ) * y),
            s.max_temp)

/-- Source lines 48-77: outcome of the acquisition and validation part of
one cycle.  `none` models `com.any() <= 0` (line 50); a too-short read
models line 55; otherwise the frame is validated. -/
def cycleOutcome (input : Option (List ℕ)) : ValidationResult :=
  match input with
  | none => .Rejected .NoData
  | some f => if f.length ≠ FRAME_LEN then .Rejected .IncompleteFrame else validate f

/-- One full cycle as far as the persistent alert state is concerned:
every rejection path `continue`s without touching `last_vibration` or the
motor; an accepted frame runs the scan and the vibration logic of lines
105-113.  Returns (pulse emitted, new `last_vibration`). -/
def runCycle (input : Option (List ℕ)) (now last : ℤ) : Bool × ℤ :=
  match input with
  | none => (false, last)
  | some f =>
      if f.length ≠ FRAME_LEN then (false, last)
      else match validate f with
        | .Rejected _ => (false, last)
        | .Accepted => onCycle (scan (fun i => decodeTemp f i)).person_detected now last

/-- Corruption model of claim C2: flip bit `b` (0-7) of byte `k`. -/
def flipBit (f : List ℕ) (k b : ℕ) : List ℕ := f.set k (f.getD k 0 ^^^ (1 <<< b))

/-- Byte `j` of the synthetic frame body used by claim C3: the sentinel
header at [0,2), a zero declared-length field at [2,4) (it is parsed but
unenforced), the little-endian pixel word of pixel `(j-4)/2` at
[4,1540), and zero padding at [1540,1542). -/
def encByte (vals : ℕ → ℕ) (j : ℕ) : ℕ :=
  if j < 2 then START_FLAG
  else if j < 4 then 0
  else if j < 1540 then
    (if (j - 4) % 2 = 0 then vals ((j - 4) / 2) % 256
     else vals ((j - 4) / 2) / 256 % 256)
  else 0

/-- The first 1542 bytes of the synthetic frame of claim C3. -/
def frameBody (vals : ℕ → ℕ) : List ℕ :=
  List.ofFn fun j : Fin 1542 => encByte vals j.val

/-- The synthetic valid frame of claim C3: pixel words encoded
little-endian at offsets 4+2i, with the frame's true 16-bit checksum
appended little-endian as the trailing word. -/
def encodeFrame (vals : ℕ → ℕ) : List ℕ :=
  frameBody vals ++
    [checksum (frameBody vals) % 256, checksum (frameBody vals) / 256]

/-- Concrete witness grid: all pixels 25 °C except pixel 5 at 35 °C. -/
def tempsHot : ℕ → ℚ := fun i => if i = 5 then 35 else 25

/-- Concrete witness pixel words: every pixel 25.00 °C. -/
def valsConst : ℕ → ℕ := fun _ => 2500

/-- Concrete witness pixel words: 35.00 °C at pixel 100 (grid cell
(4, 3)), 25.00 °C elsewhere. -/
def valsScenario : ℕ → ℕ := fun i => if i = 100 then 3500 else 2500

/-- Concrete pixel words for the C6 counterexample: 350.00 °C at pixel
100, 25.00 °C elsewhere. -/
def vals350 : ℕ → ℕ := fun i => if i = 100 then 35000 else 2500

/-- Concrete pixel words for the C6 counterexample: 26.00 °C at pixel 0,
25.50 °C at pixel 1, 25.00 °C elsewhere. -/
def valsRound : ℕ → ℕ :=
  fun i => if i = 0 then 2600 else if i = 1 then 2550 else 2500

/-! ### Basic facts about the scan loop -/

theorem scanPrefix_zero (temps : ℕ → ℚ) : scanPrefix temps 0 = initScanState := rfl

theorem scanPrefix_succ (temps : ℕ → ℚ) (n : ℕ) :
    scanPrefix temps (n + 1) = scanStep (temps n) n (scanPrefix temps n) := by
  unfold scanPrefix
  rw [List.range_succ, List.foldl_append]
  rfl

theorem scanStep_eq (t : ℚ) (idx : ℕ) (s : ScanState) :
    scanStep t idx s =
      { min_temp := if t < s.min_temp then max t MIN_TEMP_LIMIT else s.min_temp
        max_temp := if s.max_temp < t then min t MAX_TEMP_LIMIT else s.max_temp
        max_pos := if s.max_temp < t then
          some (idx % SENSOR_WIDTH, idx / SENSOR_WIDTH) else s.max_pos
        person_detected := if s.max_temp < t then
          (if PERSON_TEMP_THRESHOLD < t then true else s.person_detected)
          else s.person_detected } := by
  unfold scanStep
  by_cases h1 : t < s.min_temp <;> by_cases h2 : s.max_temp < t <;> simp [h1, h2]

theorem scanStep_min_le (t : ℚ) (idx : ℕ) (s : ScanState)
    (h : MIN_TEMP_LIMIT ≤ s.min_temp) : MIN_TEMP_LIMIT ≤ (scanStep t idx s).min_temp := by
  rw [scanStep_eq]
  dsimp only
  split_ifs <;> simp_all [le_max_right]

theorem scanStep_max_le (t : ℚ) (idx : ℕ) (s : ScanState)
    (h : s.max_temp ≤ MAX_TEMP_LIMIT) : (scanStep t idx s).max_temp ≤ MAX_TEMP_LIMIT := by
  rw [scanStep_eq]
  dsimp only
  split_ifs <;> simp_all [min_le_right]

theorem scanPrefix_bounds (temps : ℕ → ℚ) (n : ℕ) :
    MIN_TEMP_LIMIT ≤ (scanPrefix temps n).min_temp ∧
      (scanPrefix temps n).max_temp ≤ MAX_TEMP_LIMIT := by
  induction n with
  | zero =>
      constructor <;> norm_num [scanPrefix, initScanState, MIN_TEMP_LIMIT, MAX_TEMP_LIMIT]
  | succ n ih =>
      rw [scanPrefix_succ]
      exact ⟨scanStep_min_le _ _ _ ih.1, scanStep_max_le _ _ _ ih.2⟩

theorem scanStep_max_le_thresh (t : ℚ) (idx : ℕ) (s : ScanState)
    (ht : t ≤ PERSON_TEMP_THRESHOLD) (h : s.max_temp ≤ PERSON_TEMP_THRESHOLD) :
    (scanStep t idx s).max_temp ≤ PERSON_TEMP_THRESHOLD := by
  rw [scanStep_eq]
  dsimp only
  split_ifs with h1
  · exact le_trans (min_le_left t MAX_TEMP_LIMIT) ht
  · exact h

theorem scanPrefix_max_le_thresh (temps : ℕ → ℚ) (n : ℕ)
    (h : ∀ i < n, temps i ≤ PERSON_TEMP_THRESHOLD) :
    (scanPrefix temps n).max_temp ≤ PERSON_TEMP_THRESHOLD := by
  induction n with
  | zero => norm_num [scanPrefix, initScanState, MIN_TEMP_LIMIT, PERSON_TEMP_THRESHOLD]
  | succ n ih =>
      rw [scanPrefix_succ]
      exact scanStep_max_le_thresh _ _ _ (h n (Nat.lt_succ_self n))
        (ih fun i hi => h i (Nat.lt_succ_of_lt hi))

theorem scanStep_person (t : ℚ) (idx : ℕ) (s : ScanState) :
    (scanStep t idx s).person_detected = true ↔
      (s.person_detected = true ∨ (s.max_temp < t ∧ PERSON_TEMP_THRESHOLD < t)) := by
  rw [scanStep_eq]
  dsimp only
  split_ifs <;> simp_all <;> tauto

theorem scanPrefix_person_iff (temps : ℕ → ℚ) (n : ℕ) :
    (scanPrefix temps n).person_detected = true ↔
      ∃ i < n, PERSON_TEMP_THRESHOLD < temps i := by
  induction n with
  | zero => simp [scanPrefix, initScanState]
  | succ n ih =>
      rw [scanPrefix_succ, scanStep_person]
      constructor
      · rintro (h | h)
        · obtain ⟨i, hi, ht⟩ := ih.mp h
          exact ⟨i, Nat.lt_succ_of_lt hi, ht⟩
        · exact ⟨n, Nat.lt_succ_self n, h.2⟩
      · rintro ⟨i, hi, ht⟩
        by_cases hc : ∃ j < n, PERSON_TEMP_THRESHOLD < temps j
        · exact Or.inl (ih.mpr hc)
        · have hin : i = n := by
            rcases Nat.lt_succ_iff_lt_or_eq.mp hi with h' | h'
            · exact absurd ⟨i, h', ht⟩ hc
            · exact h'
          subst hin
          have hall : ∀ j < i, temps j ≤ PERSON_TEMP_THRESHOLD := by
            intro j hj
            by_contra hgt
            exact hc ⟨j, hj, not_le.mp hgt⟩
          exact Or.inr ⟨lt_of_le_of_lt (scanPrefix_max_le_thresh temps i hall) ht, ht⟩

/-! ### Claims C4, C5, C10 -/

/-- Claim C4: for every accepted frame, after the single-pass scan the
reported `min_temp` is never below the floor limit 0 and the reported
`max_temp` is never above the ceiling limit 300, regardless of the raw
decoded pixel values. -/
theorem claim_C4 (f : List ℕ) (hacc : validate f = .Accepted) :
    MIN_TEMP_LIMIT ≤ (scan (fun i => decodeTemp f i)).min_temp ∧
      (scan (fun i => decodeTemp f i)).max_temp ≤ MAX_TEMP_LIMIT :=
  scanPrefix_bounds _ _

/-- Claim C5: with cooldown 500 ms and an idle controller, occupancy
events at `t` and `t + 400` produce exactly one pulse (the second is
dropped and leaves the state untouched), while events at `t` and
`t + 600` produce two pulses; `last_vibration` is set to the trigger
time on each pulse. -/
theorem claim_C5 (last t : ℤ) (hidle : t - last > VIBRATION_INTERVAL_MS) :
    onCycle true t last = (true, t) ∧
      onCycle true (t + 400) t = (false, t) ∧
      onCycle true (t + 600) t = (true, t + 600) := by
  simp only [VIBRATION_INTERVAL_MS] at hidle
  unfold onCycle VIBRATION_INTERVAL_MS
  refine ⟨?_, ?_, ?_⟩ <;> split_ifs <;> first | rfl | omega | simp_all

theorem claim_C5_witness :
    (501 : ℤ) - 0 > VIBRATION_INTERVAL_MS ∧
      (onCycle true 501 0 = (true, 501) ∧
        onCycle true (501 + 400) 501 = (false, 501) ∧
        onCycle true (501 + 600) 501 = (true, 501 + 600)) :=
  ⟨by norm_num [VIBRATION_INTERVAL_MS],
   claim_C5 0 501 (by norm_num [VIBRATION_INTERVAL_MS])⟩

/-- Claim C10: `last_vibration` is initialised to the program start time
(line 45), so an occupancy cycle within the first 500 ms after startup
emits no pulse even though no pulse was ever emitted before. -/
theorem claim_C10 (t0 now : ℤ) (h1 : 0 ≤ now - t0)
    (h2 : now - t0 ≤ VIBRATION_INTERVAL_MS) :
    onCycle true now (initLast t0) = (false, initLast t0) := by
  simp only [VIBRATION_INTERVAL_MS] at h2
  unfold onCycle initLast VIBRATION_INTERVAL_MS
  split_ifs <;> first | rfl | omega | simp_all

theorem claim_C10_witness :
    (0 : ℤ) ≤ 300 - 0 ∧ (300 : ℤ) - 0 ≤ VIBRATION_INTERVAL_MS ∧
      onCycle true 300 (initLast 0) = (false, initLast 0) :=
  ⟨by norm_num, by norm_num [VIBRATION_INTERVAL_MS],
   claim_C10 0 300 (by norm_num) (by norm_num [VIBRATION_INTERVAL_MS])⟩

/-! ### Claim C9 -/

/-- Claim C9: for every grid of non-negative temperatures, the final
occupancy flag after the full row-major scan is true iff some pixel's
temperature exceeds the 30 °C threshold; the source's "new running
maximum over threshold" rule coincides with "any pixel over threshold"
at the end of the scan. -/
theorem claim_C9 (temps : ℕ → ℚ) (hnn : ∀ i < 768, 0 ≤ temps i) :
    ((scan temps).person_detected = true ↔
      ∃ i < 768, temps i > PERSON_TEMP_THRESHOLD) := by
  have h := scanPrefix_person_iff temps (SENSOR_WIDTH * SENSOR_HEIGHT)
  norm_num [SENSOR_WIDTH, SENSOR_HEIGHT] at h
  exact h

set_option maxRecDepth 4000 in
theorem claim_C9_witness :
    (∀ i < 768, (0 : ℚ) ≤ tempsHot i) ∧
      ((scan tempsHot).person_detected = true ↔
        ∃ i < 768, tempsHot i > PERSON_TEMP_THRESHOLD) :=
  ⟨by decide, claim_C9 tempsHot (by decide)⟩

/-! ### Checksum and validation helpers -/

theorem and_mask (x : ℕ) : x &&& 0xFFFF = x % 65536 := by
  have h := Nat.and_pow_two_sub_one_eq_mod x 16
  norm_num at h
  exact h

theorem foldl_mask (g : ℕ → ℕ) (l : List ℕ) (a : ℕ) (ha : a < 65536) :
    l.foldl (fun acc j => (acc + g j) &&& 0xFFFF) a = (a + (l.map g).sum) % 65536 := by
  induction l generalizing a with
  | nil => simpa using (Nat.mod_eq_of_lt ha).symm
  | cons x xs ih =>
      simp only [List.foldl_cons, List.map_cons, List.sum_cons]
      rw [ih _ (by rw [and_mask]; exact Nat.mod_lt _ (by norm_num))]
      rw [and_mask, Nat.mod_add_mod]
      congr 1
      omega

theorem sum_map_range (g : ℕ → ℕ) (n : ℕ) :
    ((List.range n).map g).sum = ∑ j ∈ Finset.range n, g j := by
  induction n with
  | zero => simp
  | succ n ih =>
      rw [List.range_succ, List.map_append, List.sum_append, Finset.sum_range_succ, ih]
      simp

theorem checksum_eq_sum (f : List ℕ) :
    checksum f = (∑ j ∈ Finset.range 771, word16 f (2 * j)) % 65536 := by
  unfold checksum
  rw [foldl_mask _ _ 0 (by norm_num), sum_map_range]
  norm_num

theorem checksum_lt (f : List ℕ) : checksum f < 65536 := by
  rw [checksum_eq_sum]
  exact Nat.mod_lt _ (by norm_num)

theorem word16_eq (f : List ℕ) (i : ℕ) (h : f.getD i 0 < 256) :
    word16 f i = fromBytesLE2 f i := by
  unfold word16 fromBytesLE2
  have h8 : f.getD i 0 < 2 ^ 8 := h
  have key := Nat.mul_add_lt_is_or h8 (f.getD (i + 1) 0)
  rw [Nat.shiftLeft_eq, Nat.mul_comm (f.getD (i + 1) 0) (2 ^ 8), ← key]
  norm_num
  omega

theorem recvSum_eq_word16 (f : List ℕ) : recvSum f = word16 f 1542 := rfl

theorem validate_accepted_iff (f : List ℕ) :
    validate f = .Accepted ↔
      (f.getD 0 0 = START_FLAG ∧ f.getD 1 0 = START_FLAG ∧
        checksum f = recvSum f) := by
  unfold validate
  split_ifs with h1 h2
  · constructor
    · intro h
      exact h.elim
    · rintro ⟨ha, hb, -⟩
      rcases h1 with h | h
      · exact absurd ha h
      · exact absurd hb h
  · constructor
    · intro h
      exact h.elim
    · rintro ⟨-, -, hc⟩
      exact absurd hc h2
  · push_neg at h1
    rw [not_not] at h2
    exact ⟨fun _ => ⟨h1.1, h1.2, h2⟩, fun _ => rfl⟩

theorem validate_reject_header (f : List ℕ)
    (h : ¬(f.getD 0 0 = START_FLAG ∧ f.getD 1 0 = START_FLAG)) :
    validate f = .Rejected .InvalidHeader := by
  unfold validate
  rw [if_pos (not_and_or.mp h)]

theorem validate_reject_checksum (f : List ℕ) (h0 : f.getD 0 0 = START_FLAG)
    (h1 : f.getD 1 0 = START_FLAG) (hc : checksum f ≠ recvSum f) :
    validate f = .Rejected .ChecksumMismatch := by
  unfold validate
  rw [if_neg (by push_neg; exact ⟨h0, h1⟩), if_pos hc]

/-! ### Claim C1 -/

/-- Claim C1: a 1544-byte frame is accepted iff bytes 0 and 1 both equal
the sentinel 0x5A and the 16-bit modular sum of the little-endian words
over [0, 1542) equals the little-endian word at [1542, 1544); a header
mismatch yields Rejected(InvalidHeader) and (with the header intact) a
sum mismatch yields Rejected(ChecksumMismatch). -/
theorem claim_C1 (f : List ℕ) (hlen : f.length = 1544)
    (hbytes : ∀ i < 1544, f.getD i 0 < 256) :
    (validate f = .Accepted ↔
      (f.getD 0 0 = START_FLAG ∧ f.getD 1 0 = START_FLAG ∧
        (∑ j ∈ Finset.range 771, fromBytesLE2 f (2 * j)) % 65536 =
          fromBytesLE2 f 1542)) ∧
    (¬(f.getD 0 0 = START_FLAG ∧ f.getD 1 0 = START_FLAG) →
      validate f = .Rejected .InvalidHeader) ∧
    (f.getD 0 0 = START_FLAG → f.getD 1 0 = START_FLAG →
      (∑ j ∈ Finset.range 771, fromBytesLE2 f (2 * j)) % 65536 ≠
        fromBytesLE2 f 1542 →
      validate f = .Rejected .ChecksumMismatch) := by
  have hsum : checksum f = (∑ j ∈ Finset.range 771, fromBytesLE2 f (2 * j)) % 65536 := by
    rw [checksum_eq_sum]
    have he : ∀ j ∈ Finset.range 771, word16 f (2 * j) = fromBytesLE2 f (2 * j) := by
      intro j hj
      have hjlt : 2 * j < 1544 := by
        have := Finset.mem_range.mp hj
        omega
      exact word16_eq f (2 * j) (hbytes _ hjlt)
    rw [Finset.sum_congr rfl he]
  have hrecv : recvSum f = fromBytesLE2 f 1542 := by
    rw [recvSum_eq_word16]
    exact word16_eq f 1542 (hbytes _ (by norm_num))
  refine ⟨?_, validate_reject_header f, ?_⟩
  · rw [validate_accepted_iff, hsum, hrecv]
  · intro h0 h1 hc
    exact validate_reject_checksum f h0 h1 (by rw [hsum, hrecv]; exact hc)

/-! ### The synthetic frame of claim C3 -/

theorem frameBody_length (vals : ℕ → ℕ) : (frameBody vals).length = 1542 := by
  unfold frameBody
  exact List.length_ofFn _

theorem encodeFrame_length (vals : ℕ → ℕ) : (encodeFrame vals).length = 1544 := by
  unfold encodeFrame
  rw [List.length_append, frameBody_length, List.length_cons, List.length_cons,
    List.length_nil]

theorem frameBody_getD (vals : ℕ → ℕ) (j : ℕ) (hj : j < 1542) :
    (frameBody vals).getD j 0 = encByte vals j := by
  unfold frameBody
  rw [List.getD_eq_getElem _ _ (by rw [List.length_ofFn]; exact hj), List.getElem_ofFn]

theorem encodeFrame_getD_lt (vals : ℕ → ℕ) (j : ℕ) (hj : j < 1542) :
    (encodeFrame vals).getD j 0 = encByte vals j := by
  unfold encodeFrame
  rw [List.getD_append _ _ _ _ (by rw [frameBody_length]; exact hj)]
  exact frameBody_getD vals j hj

theorem encodeFrame_getD_1542 (vals : ℕ → ℕ) :
    (encodeFrame vals).getD 1542 0 = checksum (frameBody vals) % 256 := by
  unfold encodeFrame
  rw [List.getD_append_right _ _ _ _ (le_of_eq (frameBody_length vals))]
  rw [frameBody_length]
  rw [show (1542 : ℕ) - 1542 = 0 from rfl]
  exact List.getD_cons_zero

theorem encodeFrame_getD_1543 (vals : ℕ → ℕ) :
    (encodeFrame vals).getD 1543 0 = checksum (frameBody vals) / 256 := by
  unfold encodeFrame
  rw [List.getD_append_right _ _ _ _ (by rw [frameBody_length]; norm_num)]
  rw [frameBody_length]
  rw [show (1543 : ℕ) - 1542 = 1 from rfl]
  rw [List.getD_cons_succ]
  exact List.getD_cons_zero

theorem checksum_encodeFrame (vals : ℕ → ℕ) :
    checksum (encodeFrame vals) = checksum (frameBody vals) := by
  rw [checksum_eq_sum, checksum_eq_sum]
  have he : ∀ j ∈ Finset.range 771,
      word16 (encodeFrame vals) (2 * j) = word16 (frameBody vals) (2 * j) := by
    intro j hj
    have hj771 := Finset.mem_range.mp hj
    unfold word16
    rw [encodeFrame_getD_lt vals (2 * j) (by omega), frameBody_getD vals (2 * j) (by omega),
        encodeFrame_getD_lt vals (2 * j + 1) (by omega),
        frameBody_getD vals (2 * j + 1) (by omega)]
  rw [Finset.sum_congr rfl he]

theorem recvSum_encodeFrame (vals : ℕ → ℕ) :
    recvSum (encodeFrame vals) = checksum (frameBody vals) := by
  unfold recvSum
  rw [encodeFrame_getD_1542, encodeFrame_getD_1543]
  have hclt : checksum (frameBody vals) < 65536 := checksum_lt _
  have h8 : checksum (frameBody vals) % 256 < 2 ^ 8 := by
    have := Nat.mod_lt (checksum (frameBody vals)) (show 0 < 256 by norm_num)
    norm_num
    omega
  have key := Nat.mul_add_lt_is_or h8 (checksum (frameBody vals) / 256)
  rw [Nat.shiftLeft_eq, Nat.mul_comm (checksum (frameBody vals) / 256) (2 ^ 8), ← key]
  have hmd := Nat.mod_add_div (checksum (frameBody vals)) 256
  norm_num
  omega

theorem encode_accepted (vals : ℕ → ℕ) : validate (encodeFrame vals) = .Accepted := by
  rw [validate_accepted_iff]
  refine ⟨?_, ?_, ?_⟩
  · rw [encodeFrame_getD_lt vals 0 (by norm_num)]
    rfl
  · rw [encodeFrame_getD_lt vals 1 (by norm_num)]
    rfl
  · rw [checksum_encodeFrame, recvSum_encodeFrame]

theorem encByte_lo (vals : ℕ → ℕ) (i : ℕ) (hi : i < 768) :
    encByte vals (4 + 2 * i) = vals i % 256 := by
  unfold encByte
  rw [if_neg (by omega), if_neg (by omega), if_pos (by omega), if_pos (by omega)]
  rw [show (4 + 2 * i - 4) / 2 = i from by omega]

theorem encByte_hi (vals : ℕ → ℕ) (i : ℕ) (hi : i < 768) :
    encByte vals (4 + 2 * i + 1) = vals i / 256 % 256 := by
  unfold encByte
  rw [if_neg (by omega), if_neg (by omega), if_pos (by omega), if_neg (by omega)]
  rw [show (4 + 2 * i + 1 - 4) / 2 = i from by omega]

theorem encode_decode (vals : ℕ → ℕ) (i : ℕ) (hi : i < 768) (hv : vals i < 65536) :
    decodeTemp (encodeFrame vals) i = (vals i : ℚ) / 100 := by
  unfold decodeTemp fromBytesLE2
  rw [encodeFrame_getD_lt vals (4 + 2 * i) (by omega),
      encodeFrame_getD_lt vals (4 + 2 * i + 1) (by omega)]
  rw [encByte_lo vals i hi, encByte_hi vals i hi]
  rw [Nat.mod_eq_of_lt (show vals i / 256 < 256 by omega)]
  rw [Nat.mod_add_div (vals i) 256]

theorem encodeFrame_bytes (vals : ℕ → ℕ) (i : ℕ) (hi : i < 1544) :
    (encodeFrame vals).getD i 0 < 256 := by
  by_cases h : i < 1542
  · rw [encodeFrame_getD_lt vals i h]
    unfold encByte
    split_ifs <;> first | exact Nat.mod_lt _ (by norm_num) | norm_num [START_FLAG]
  · have hclt : checksum (frameBody vals) < 65536 := checksum_lt _
    have h2 : i = 1542 ∨ i = 1543 := by omega
    rcases h2 with rfl | rfl
    · rw [encodeFrame_getD_1542]
      exact Nat.mod_lt _ (by norm_num)
    · rw [encodeFrame_getD_1543]
      omega

/-! ### Claim C3 -/

/-- Claim C3: for every grid of 768 temperatures representable as an
unsigned 16-bit value over 100, the synthetic frame with those values
encoded little-endian at offsets 4+2i and a matching trailing checksum
is accepted; decoding reproduces every temperature exactly (so within
0.01 °C); and pixel i is the grid cell read at position
(i mod 32, i div 32) in row-major order. -/
theorem claim_C3 (vals : ℕ → ℕ) (hv : ∀ i < 768, vals i < 65536) :
    validate (encodeFrame vals) = .Accepted ∧
      (∀ i < 768,
        decodeTemp (encodeFrame vals) i = (vals i : ℚ) / 100 ∧
          |decodeTemp (encodeFrame vals) i - (vals i : ℚ) / 100| ≤ 1 / 100) ∧
      (∀ i < 768,
        gridCell (fun idx => decodeTemp (encodeFrame vals) idx) (i % 32) (i / 32) =
          decodeTemp (encodeFrame vals) i) := by
  refine ⟨encode_accepted vals, fun i hi => ?_, fun i hi => ?_⟩
  · have hd := encode_decode vals i hi (hv i hi)
    refine ⟨hd, ?_⟩
    rw [hd]
    simp
  · unfold gridCell
    congr 1
    have : i / 32 * SENSOR_WIDTH + i % 32 = i := by
      simp only [SENSOR_WIDTH]
      omega
    rw [this]

theorem claim_C3_witness :
    (∀ i < 768, valsConst i < 65536) ∧
      (validate (encodeFrame valsConst) = .Accepted ∧
        (∀ i < 768,
          decodeTemp (encodeFrame valsConst) i = (valsConst i : ℚ) / 100 ∧
            |decodeTemp (encodeFrame valsConst) i - (valsConst i : ℚ) / 100| ≤ 1 / 100) ∧
        (∀ i < 768,
          gridCell (fun idx => decodeTemp (encodeFrame valsConst) idx) (i % 32) (i / 32) =
            decodeTemp (encodeFrame valsConst) i)) :=
  ⟨fun i _ => by norm_num [valsConst],
   claim_C3 valsConst (fun i _ => by norm_num [valsConst])⟩

theorem claim_C1_witness :
    (encodeFrame valsConst).length = 1544 ∧
      (∀ i < 1544, (encodeFrame valsConst).getD i 0 < 256) ∧
      ((validate (encodeFrame valsConst) = .Accepted ↔
        ((encodeFrame valsConst).getD 0 0 = START_FLAG ∧
          (encodeFrame valsConst).getD 1 0 = START_FLAG ∧
          (∑ j ∈ Finset.range 771, fromBytesLE2 (encodeFrame valsConst) (2 * j)) % 65536 =
            fromBytesLE2 (encodeFrame valsConst) 1542)) ∧
      (¬((encodeFrame valsConst).getD 0 0 = START_FLAG ∧
          (encodeFrame valsConst).getD 1 0 = START_FLAG) →
        validate (encodeFrame valsConst) = .Rejected .InvalidHeader) ∧
      ((encodeFrame valsConst).getD 0 0 = START_FLAG →
        (encodeFrame valsConst).getD 1 0 = START_FLAG →
        (∑ j ∈ Finset.range 771, fromBytesLE2 (encodeFrame valsConst) (2 * j)) % 65536 ≠
          fromBytesLE2 (encodeFrame valsConst) 1542 →
        validate (encodeFrame valsConst) = .Rejected .ChecksumMismatch)) :=
  ⟨encodeFrame_length valsConst, fun i hi => encodeFrame_bytes valsConst i hi,
   claim_C1 (encodeFrame valsConst) (encodeFrame_length valsConst)
     (fun i hi => encodeFrame_bytes valsConst i hi)⟩

theorem claim_C4_witness :
    validate (encodeFrame valsConst) = .Accepted ∧
      (MIN_TEMP_LIMIT ≤ (scan (fun i => decodeTemp (encodeFrame valsConst) i)).min_temp ∧
        (scan (fun i => decodeTemp (encodeFrame valsConst) i)).max_temp ≤ MAX_TEMP_LIMIT) :=
  ⟨encode_accepted valsConst, claim_C4 _ (encode_accepted valsConst)⟩

/-! ### Claim C7 -/

/-- Claim C7: on every rejection path (NoData, IncompleteFrame,
InvalidHeader, ChecksumMismatch) the cycle leaves `last_vibration`
unchanged and never drives the motor; and a full-length frame whose two
header bytes are (0x00, 0x00) is rejected with InvalidHeader whatever
the rest of the frame holds — the header check precedes the checksum
computation and all decoding. -/
theorem claim_C7 :
    (∀ (input : Option (List ℕ)) (now last : ℤ) (r : RejectReason),
      cycleOutcome input = .Rejected r → runCycle input now last = (false, last)) ∧
    (∀ f : List ℕ, f.length = 1544 → f.getD 0 0 = 0x00 → f.getD 1 0 = 0x00 →
      cycleOutcome (some f) = .Rejected .InvalidHeader) := by
  constructor
  · rintro (_ | f) now last r h
    · rfl
    · simp only [cycleOutcome] at h
      simp only [runCycle]
      by_cases hlen : f.length ≠ FRAME_LEN
      · rw [if_pos hlen]
      · rw [if_neg hlen]
        rw [if_neg hlen] at h
        rw [h]
  · intro f hlen h0 h1
    simp only [cycleOutcome]
    rw [if_neg (by simp [hlen, FRAME_LEN])]
    apply validate_reject_header
    rintro ⟨ha, -⟩
    rw [h0] at ha
    exact absurd ha (by norm_num [START_FLAG])

theorem claim_C7_witness :
    (cycleOutcome (some (List.replicate 1544 0)) = .Rejected .InvalidHeader ∧
      runCycle (some (List.replicate 1544 0)) 1000 0 = (false, 0)) ∧
    runCycle none 1000 0 = (false, 0) := by
  have h2 := claim_C7.2 (List.replicate 1544 0) (by rw [List.length_replicate]) rfl rfl
  exact ⟨⟨h2, claim_C7.1 _ 1000 0 .InvalidHeader h2⟩,
    claim_C7.1 none 1000 0 .NoData rfl⟩

/-! ### Truncation toward zero -/

theorem pyInt_eq_floor (q : ℚ) (h : 0 ≤ q) : pyInt q = ⌊q⌋ := by
  rw [pyInt, if_neg (by rw [Int.not_lt]; exact Rat.num_nonneg.mpr h),
    Rat.floor_def', Rat.floor_def]

theorem pyInt_natCast (n : ℕ) : pyInt ((n : ℕ) : ℚ) = n := by
  rw [pyInt_eq_floor _ (by positivity), Int.floor_natCast]

/-! ### The scan on one-hot grids -/

theorem scanPrefix_congr (t1 t2 : ℕ → ℚ) (n : ℕ) (h : ∀ i < n, t1 i = t2 i) :
    scanPrefix t1 n = scanPrefix t2 n := by
  induction n with
  | zero => rfl
  | succ n ih =>
      rw [scanPrefix_succ, scanPrefix_succ, ih (fun i hi => h i (Nat.lt_succ_of_lt hi)),
        h n (Nat.lt_succ_self n)]

theorem scanState_ext (s t : ScanState) (h1 : s.min_temp = t.min_temp)
    (h2 : s.max_temp = t.max_temp) (h3 : s.max_pos = t.max_pos)
    (h4 : s.person_detected = t.person_detected) : s = t := by
  cases s
  cases t
  simp_all

theorem oneHot_min (h : ℕ) (base hot : ℚ) (hb0 : 0 < base) (hb30 : base ≤ 30)
    (hbh : base < hot) (n : ℕ) :
    (scanPrefix (fun i => if i = h then hot else base) n).min_temp =
      if n = 0 then 300 else if n = 1 ∧ h = 0 then min hot 300 else base := by
  have hb300 : base < 300 := by linarith
  have hhot0 : (0 : ℚ) < hot := by linarith
  induction n with
  | zero => simp [scanPrefix_zero, initScanState, MAX_TEMP_LIMIT]
  | succ n ih =>
      rw [scanPrefix_succ, scanStep_eq]
      dsimp only
      rw [ih]
      simp only [MIN_TEMP_LIMIT]
      by_cases hnh : n = h
      · subst hnh
        rw [if_pos rfl]
        by_cases hn0 : n = 0
        · subst hn0
          simp only [if_pos rfl, reduceIte, and_true]
          norm_num
          split_ifs with hc
          · rw [max_eq_left hhot0.le, min_eq_left hc.le]
          · rw [min_eq_right (not_lt.mp hc)]
        · have hx1 : ¬(n = 1 ∧ n = 0) := by omega
          have hx2 : ¬(n + 1 = 1 ∧ n = 0) := by omega
          have hx3 : ¬n + 1 = 0 := by omega
          simp only [if_neg hn0, if_neg hx1, if_neg hx2, if_neg hx3]
          rw [if_neg (by linarith : ¬hot < base)]
      · rw [if_neg hnh]
        by_cases hn0 : n = 0
        · subst hn0
          have hh0 : ¬h = 0 := by omega
          norm_num [hh0]
          rw [if_pos hb300, max_eq_left hb0.le]
        · by_cases hn1 : n = 1 ∧ h = 0
          · obtain ⟨hn1', hh0⟩ := hn1
            subst hn1'
            subst hh0
            have hbmin : base < min hot 300 := lt_min hbh hb300
            norm_num
            rw [if_pos (⟨hbh, hb300⟩ : base < hot ∧ base < 300), max_eq_left hb0.le]
          · have hx2 : ¬(n + 1 = 1 ∧ h = 0) := by omega
            simp only [if_neg hn0, if_neg hn1, if_neg hx2,
              if_neg (by omega : ¬n + 1 = 0)]
            rw [if_neg (lt_irrefl base)]

theorem oneHot_max (h : ℕ) (base hot : ℚ) (hb0 : 0 < base) (hb30 : base ≤ 30)
    (hbh : base < hot) (n : ℕ) :
    (scanPrefix (fun i => if i = h then hot else base) n).max_temp =
      if h < n then min hot 300 else if n = 0 then 0 else base := by
  have hb300 : base < 300 := by linarith
  have hhot0 : (0 : ℚ) < hot := by linarith
  have hbmin : base < min hot 300 := lt_min hbh hb300
  induction n with
  | zero => simp [scanPrefix_zero, initScanState, MIN_TEMP_LIMIT]
  | succ n ih =>
      rw [scanPrefix_succ, scanStep_eq]
      dsimp only
      rw [ih]
      simp only [MAX_TEMP_LIMIT]
      by_cases hnh : n = h
      · subst hnh
        rw [if_pos rfl, if_neg (lt_irrefl n), if_pos (by omega : n < n + 1)]
        by_cases hn0 : n = 0
        · simp only [if_pos hn0]
          rw [if_pos hhot0]
        · simp only [if_neg hn0]
          rw [if_pos hbh]
      · rw [if_neg hnh]
        by_cases hhn : h < n
        · have hh1 : h < n + 1 := by omega
          simp only [if_pos hhn, if_pos hh1]
          rw [if_neg (not_lt.mpr hbmin.le)]
        · have hh1 : ¬h < n + 1 := by omega
          simp only [if_neg hhn, if_neg hh1, if_neg (by omega : ¬n + 1 = 0)]
          by_cases hn0 : n = 0
          · simp only [if_pos hn0]
            rw [if_pos hb0, min_eq_left hb300.le]
          · simp only [if_neg hn0]
            rw [if_neg (lt_irrefl base)]

theorem oneHot_pos (h : ℕ) (base hot : ℚ) (hb0 : 0 < base) (hb30 : base ≤ 30)
    (hbh : base < hot) (n : ℕ) :
    (scanPrefix (fun i => if i = h then hot else base) n).max_pos =
      if h < n then some (h % 32, h / 32) else if n = 0 then none else some (0, 0) := by
  have hb300 : base < 300 := by linarith
  have hhot0 : (0 : ℚ) < hot := by linarith
  have hbmin : base < min hot 300 := lt_min hbh hb300
  induction n with
  | zero => simp [scanPrefix_zero, initScanState]
  | succ n ih =>
      rw [scanPrefix_succ, scanStep_eq]
      dsimp only
      rw [ih, oneHot_max h base hot hb0 hb30 hbh n]
      simp only [SENSOR_WIDTH]
      by_cases hnh : n = h
      · subst hnh
        rw [if_pos rfl, if_neg (lt_irrefl n), if_pos (by omega : n < n + 1)]
        by_cases hn0 : n = 0
        · norm_num [hn0, hhot0]
        · simp only [if_neg hn0]
          rw [if_pos hbh]
      · rw [if_neg hnh]
        by_cases hhn : h < n
        · have hh1 : h < n + 1 := by omega
          simp only [if_pos hhn, if_pos hh1]
          rw [if_neg (not_lt.mpr hbmin.le)]
        · have hh1 : ¬h < n + 1 := by omega
          simp only [if_neg hhn, if_neg hh1, if_neg (by omega : ¬n + 1 = 0)]
          by_cases hn0 : n = 0
          · norm_num [hn0, hb0]
          · simp only [if_neg hn0]
            rw [if_neg (lt_irrefl base)]

theorem oneHot_person (h : ℕ) (base hot : ℚ) (hb0 : 0 < base) (hb30 : base ≤ 30)
    (hbh : base < hot) (n : ℕ) :
    (scanPrefix (fun i => if i = h then hot else base) n).person_detected =
      decide (h < n ∧ 30 < hot) := by
  have hb300 : base < 300 := by linarith
  have hhot0 : (0 : ℚ) < hot := by linarith
  have hbmin : base < min hot 300 := lt_min hbh hb300
  induction n with
  | zero => simp [scanPrefix_zero, initScanState]
  | succ n ih =>
      rw [scanPrefix_succ, scanStep_eq]
      dsimp only
      rw [ih, oneHot_max h base hot hb0 hb30 hbh n]
      simp only [PERSON_TEMP_THRESHOLD]
      by_cases hnh : n = h
      · subst hnh
        rw [if_pos rfl, if_neg (lt_irrefl n)]
        have hne : ¬(n < n ∧ (30 : ℚ) < hot) := by
          rintro ⟨c, -⟩
          exact absurd c (lt_irrefl n)
        have hyes : (n < n + 1 ∧ (30 : ℚ) < hot) ↔ (30 : ℚ) < hot := by
          constructor
          · rintro ⟨-, c⟩
            exact c
          · intro c
            exact ⟨Nat.lt_succ_self n, c⟩
        rw [decide_eq_false hne, decide_eq_decide.mpr hyes]
        by_cases hn0 : n = 0
        · simp only [if_pos hn0]
          rw [if_pos hhot0]
          split_ifs with hc
          · rw [decide_eq_true hc]
          · rw [decide_eq_false hc]
        · simp only [if_neg hn0]
          rw [if_pos hbh]
          split_ifs with hc
          · rw [decide_eq_true hc]
          · rw [decide_eq_false hc]
      · rw [if_neg hnh]
        by_cases hhn : h < n
        · have hh1 : h < n + 1 := by omega
          have hiff : (h < n ∧ (30 : ℚ) < hot) ↔ (h < n + 1 ∧ (30 : ℚ) < hot) := by
            constructor
            · rintro ⟨-, c⟩
              exact ⟨hh1, c⟩
            · rintro ⟨-, c⟩
              exact ⟨hhn, c⟩
          simp only [if_pos hhn]
          rw [if_neg (not_lt.mpr hbmin.le), decide_eq_decide.mpr hiff]
        · have hh1 : ¬h < n + 1 := by omega
          have he1 : ¬(h < n ∧ (30 : ℚ) < hot) := fun c => absurd c.1 hhn
          have he2 : ¬(h < n + 1 ∧ (30 : ℚ) < hot) := fun c => absurd c.1 hh1
          simp only [if_neg hhn]
          rw [decide_eq_false he1, decide_eq_false he2]
          by_cases hn0 : n = 0
          · simp only [if_pos hn0]
            rw [if_pos hb0, if_neg (not_lt.mpr hb30)]
          · simp only [if_neg hn0]
            rw [if_neg (lt_irrefl base)]

theorem scan_oneHot (h : ℕ) (base hot : ℚ) (hb0 : 0 < base) (hb30 : base ≤ 30)
    (hbh : base < hot) (hh : h < 768) :
    scan (fun i => if i = h then hot else base) =
      { min_temp := base, max_temp := min hot 300,
        max_pos := some (h % 32, h / 32), person_detected := decide (30 < hot) } := by
  unfold scan
  rw [show SENSOR_WIDTH * SENSOR_HEIGHT = 768 from rfl]
  apply scanState_ext
  · rw [oneHot_min h base hot hb0 hb30 hbh 768]
    norm_num
  · rw [oneHot_max h base hot hb0 hb30 hbh 768]
    simp [hh]
  · rw [oneHot_pos h base hot hb0 hb30 hbh 768]
    simp [hh]
  · rw [oneHot_person h base hot hb0 hb30 hbh 768]
    simp [hh]

/-! ### Claim C8 -/

/-- Claim C8: for an accepted frame whose 768 pixels decode to 25.0 °C
except the one at index h, which reads 35.0 °C (threshold 30), the cycle
reports occupancy, records the hottest coordinate
(h mod 32, h div 32), and anchors the hottest-pixel overlay at the
linearly scaled display coordinate (x*160/32, y*120/24) labelling the
temperature 35 (rendered as "35.0°C" with one decimal). -/
theorem claim_C8 (f : List ℕ) (h : ℕ) (hacc : validate f = .Accepted) (hh : h < 768)
    (hdec : ∀ i < 768, decodeTemp f i = if i = h then (35 : ℚ) else 25) :
    (scan (frameTemps f)).person_detected = true ∧
      (scan (frameTemps f)).max_pos = some (h % 32, h / 32) ∧
      hottestOverlay (frameSpan f) =
        some (((h % 32 : ℕ) : ℤ) * 160 / 32, ((h / 32 : ℕ) : ℤ) * 120 / 24, 35) := by
  have hs : scan (frameTemps f) =
      { min_temp := 25, max_temp := min 35 300,
        max_pos := some (h % 32, h / 32), person_detected := decide ((30 : ℚ) < 35) } := by
    have h1 : scan (frameTemps f) = scan (fun i => if i = h then (35 : ℚ) else 25) := by
      unfold scan
      apply scanPrefix_congr
      rw [show SENSOR_WIDTH * SENSOR_HEIGHT = 768 from rfl]
      exact hdec
    rw [h1, scan_oneHot h 25 35 (by norm_num) (by norm_num) (by norm_num) hh]
  have hspan : frameSpan f =
      { min_temp := 25, max_temp := 35,
        max_pos := some (h % 32, h / 32), person_detected := true } := by
    unfold frameSpan adjustSpan
    rw [hs]
    norm_num
  refine ⟨by rw [hs]; norm_num, by rw [hs], ?_⟩
  rw [hspan]
  simp only [hottestOverlay]
  have e1 : pyInt ((LCD_W : ℚ) / (SENSOR_WIDTH : ℚ) * ((h % 32 : ℕ) : ℚ)) =
      ((h % 32 : ℕ) : ℤ) * 160 / 32 := by
    rw [show (LCD_W : ℚ) / (SENSOR_WIDTH : ℚ) = 5 by norm_num [LCD_W, SENSOR_WIDTH]]
    rw [show (5 : ℚ) * ((h % 32 : ℕ) : ℚ) = ((5 * (h % 32) : ℕ) : ℚ) by push_cast; ring]
    rw [pyInt_natCast]
    push_cast
    omega
  have e2 : pyInt ((LCD_H : ℚ) / (SENSOR_HEIGHT : ℚ) * ((h / 32 : ℕ) : ℚ)) =
      ((h / 32 : ℕ) : ℤ) * 120 / 24 := by
    rw [show (LCD_H : ℚ) / (SENSOR_HEIGHT : ℚ) = 5 by norm_num [LCD_H, SENSOR_HEIGHT]]
    rw [show (5 : ℚ) * ((h / 32 : ℕ) : ℚ) = ((5 * (h / 32) : ℕ) : ℚ) by push_cast; ring]
    rw [pyInt_natCast]
    push_cast
    omega
  rw [e1, e2]

theorem decode_scenario :
    ∀ i < 768, decodeTemp (encodeFrame valsScenario) i = if i = 100 then (35 : ℚ) else 25 := by
  intro i hi
  rw [encode_decode valsScenario i hi (by unfold valsScenario; split_ifs <;> norm_num)]
  unfold valsScenario
  split_ifs <;> norm_num

theorem claim_C8_witness :
    validate (encodeFrame valsScenario) = .Accepted ∧ 100 < 768 ∧
      (∀ i < 768, decodeTemp (encodeFrame valsScenario) i = if i = 100 then (35 : ℚ) else 25) ∧
      ((scan (frameTemps (encodeFrame valsScenario))).person_detected = true ∧
        (scan (frameTemps (encodeFrame valsScenario))).max_pos = some (100 % 32, 100 / 32) ∧
        hottestOverlay (frameSpan (encodeFrame valsScenario)) =
          some (((100 % 32 : ℕ) : ℤ) * 160 / 32, ((100 / 32 : ℕ) : ℤ) * 120 / 24, 35)) :=
  ⟨encode_accepted _, by norm_num, decode_scenario,
    claim_C8 (encodeFrame valsScenario) 100 (encode_accepted _) (by norm_num) decode_scenario⟩

/-! ### Claim C6 -/

/-- Claim C6 (amended): for every accepted frame, the grayscale value
written for cell (x, y) is the truncation toward zero (Python `int()`)
of 255 * (t - min) / (max - min) with the post-adjustment min/max — not
a rounding, and with no clamping; it only stays in [0, 255] when
min ≤ t ≤ max. -/
theorem claim_C6 (f : List ℕ) (hacc : validate f = .Accepted) (x y : ℕ)
    (hx : x < 32) (hy : y < 24) :
    displayVal f x y =
      pyInt (255 * (gridCell (frameTemps f) x y - (frameSpan f).min_temp) /
        ((frameSpan f).max_temp - (frameSpan f).min_temp)) ∧
    ((frameSpan f).min_temp ≤ gridCell (frameTemps f) x y →
      gridCell (frameTemps f) x y ≤ (frameSpan f).max_temp →
      (frameSpan f).min_temp < (frameSpan f).max_temp →
      0 ≤ displayVal f x y ∧ displayVal f x y ≤ 255) := by
  constructor
  · unfold displayVal pixelVal
    congr 1
    ring
  · intro h1 h2 h3
    unfold displayVal pixelVal
    set t := gridCell (frameTemps f) x y with ht
    set m := (frameSpan f).min_temp with hm
    set M := (frameSpan f).max_temp with hM
    have hq0 : 0 ≤ (t - m) / (M - m) * 255 := by
      apply mul_nonneg
      · apply div_nonneg <;> linarith
      · norm_num
    have hq255 : (t - m) / (M - m) * 255 ≤ 255 := by
      have hle : (t - m) / (M - m) ≤ 1 := by
        rw [div_le_one (by linarith)]
        linarith
      calc (t - m) / (M - m) * 255 ≤ 1 * 255 :=
            mul_le_mul_of_nonneg_right hle (by norm_num)
        _ = 255 := by norm_num
    rw [pyInt_eq_floor _ hq0]
    refine ⟨Int.floor_nonneg.mpr hq0, ?_⟩
    have hfl : (⌊(t - m) / (M - m) * 255⌋ : ℚ) ≤ 255 := le_trans (Int.floor_le _) hq255
    exact_mod_cast hfl

theorem frameSpan_scenario :
    frameSpan (encodeFrame valsScenario) =
      { min_temp := 25, max_temp := 35, max_pos := some (4, 3),
        person_detected := true } := by
  have h1 : scan (frameTemps (encodeFrame valsScenario)) =
      scan (fun i => if i = 100 then (35 : ℚ) else 25) := by
    unfold scan
    apply scanPrefix_congr
    rw [show SENSOR_WIDTH * SENSOR_HEIGHT = 768 from rfl]
    exact decode_scenario
  unfold frameSpan adjustSpan
  rw [h1, scan_oneHot 100 25 35 (by norm_num) (by norm_num) (by norm_num) (by norm_num)]
  norm_num

theorem gridCell_scenario : gridCell (frameTemps (encodeFrame valsScenario)) 4 3 = 35 := by
  unfold gridCell frameTemps
  rw [show 3 * SENSOR_WIDTH + 4 = 100 from rfl, decode_scenario 100 (by norm_num)]
  norm_num

theorem claim_C6_witness :
    validate (encodeFrame valsScenario) = .Accepted ∧ (4 : ℕ) < 32 ∧ (3 : ℕ) < 24 ∧
      (displayVal (encodeFrame valsScenario) 4 3 =
        pyInt (255 * (gridCell (frameTemps (encodeFrame valsScenario)) 4 3 -
            (frameSpan (encodeFrame valsScenario)).min_temp) /
          ((frameSpan (encodeFrame valsScenario)).max_temp -
            (frameSpan (encodeFrame valsScenario)).min_temp)) ∧
        (0 ≤ displayVal (encodeFrame valsScenario) 4 3 ∧
          displayVal (encodeFrame valsScenario) 4 3 ≤ 255)) := by
  have hc := claim_C6 (encodeFrame valsScenario) (encode_accepted _) 4 3
    (by norm_num) (by norm_num)
  refine ⟨encode_accepted _, by norm_num, by norm_num, hc.1, hc.2 ?_ ?_ ?_⟩ <;>
    simp only [frameSpan_scenario, gridCell_scenario] <;> norm_num

/-! The scan on the three-valued grid used by the C6 counterexample. -/

theorem desc3_max (v0 v1 base : ℚ) (h0 : 0 < base) (hb1 : base < v1)
    (h12 : v1 < v0) (h03 : v0 < 300) (n : ℕ) :
    (scanPrefix (fun i => if i = 0 then v0 else if i = 1 then v1 else base) n).max_temp =
      if n = 0 then 0 else v0 := by
  have hv00 : (0 : ℚ) < v0 := by linarith
  induction n with
  | zero => simp [scanPrefix_zero, initScanState, MIN_TEMP_LIMIT]
  | succ n ih =>
      rw [scanPrefix_succ, scanStep_eq]
      dsimp only
      rw [ih]
      simp only [MAX_TEMP_LIMIT, if_neg (by omega : ¬n + 1 = 0)]
      by_cases hn0 : n = 0
      · norm_num [hn0]
        rw [if_pos hv00, min_eq_left h03.le]
      · simp only [if_neg hn0]
        by_cases hn1 : n = 1
        · norm_num [hn1]
          exact fun hc => absurd hc (not_lt.mpr h12.le)
        · simp only [if_neg hn1]
          rw [if_neg (by linarith : ¬v0 < base)]

theorem desc3_min (v0 v1 base : ℚ) (h0 : 0 < base) (hb1 : base < v1)
    (h12 : v1 < v0) (h03 : v0 < 300) (n : ℕ) :
    (scanPrefix (fun i => if i = 0 then v0 else if i = 1 then v1 else base) n).min_temp =
      if n = 0 then 300 else if n = 1 then v0 else if n = 2 then v1 else base := by
  have hv00 : (0 : ℚ) < v0 := by linarith
  have hv10 : (0 : ℚ) < v1 := by linarith
  induction n with
  | zero => simp [scanPrefix_zero, initScanState, MAX_TEMP_LIMIT]
  | succ n ih =>
      rw [scanPrefix_succ, scanStep_eq]
      dsimp only
      rw [ih]
      simp only [MIN_TEMP_LIMIT, if_neg (by omega : ¬n + 1 = 0)]
      by_cases hn0 : n = 0
      · norm_num [hn0]
        rw [if_pos h03, max_eq_left hv00.le]
      · simp only [if_neg hn0, if_neg (by omega : ¬n + 1 = 1)]
        by_cases hn1 : n = 1
        · norm_num [hn1]
          rw [if_pos h12, max_eq_left hv10.le]
        · simp only [if_neg hn1, if_neg (by omega : ¬n + 1 = 2)]
          by_cases hn2 : n = 2
          · norm_num [hn2]
            rw [if_pos hb1, max_eq_left h0.le]
          · simp only [if_neg hn2]
            rw [if_neg (lt_irrefl base)]

theorem desc3_pos (v0 v1 base : ℚ) (h0 : 0 < base) (hb1 : base < v1)
    (h12 : v1 < v0) (h03 : v0 < 300) (n : ℕ) :
    (scanPrefix (fun i => if i = 0 then v0 else if i = 1 then v1 else base) n).max_pos =
      if n = 0 then none else some (0, 0) := by
  have hv00 : (0 : ℚ) < v0 := by linarith
  induction n with
  | zero => simp [scanPrefix_zero, initScanState]
  | succ n ih =>
      rw [scanPrefix_succ, scanStep_eq]
      dsimp only
      rw [ih, desc3_max v0 v1 base h0 hb1 h12 h03 n]
      simp only [SENSOR_WIDTH, if_neg (by omega : ¬n + 1 = 0)]
      by_cases hn0 : n = 0
      · norm_num [hn0]
        exact fun hc => absurd hv00 (not_lt.mpr hc)
      · simp only [if_neg hn0]
        by_cases hn1 : n = 1
        · norm_num [hn1]
          first
          | exact h12.le
          | exact fun hc => absurd hc (not_lt.mpr h12.le)
        · simp only [if_neg hn1]
          rw [if_neg (by linarith : ¬v0 < base)]

theorem desc3_person (v0 v1 base : ℚ) (h0 : 0 < base) (hb1 : base < v1)
    (h12 : v1 < v0) (h03 : v0 < 300) (n : ℕ) :
    (scanPrefix (fun i => if i = 0 then v0 else if i = 1 then v1 else base) n).person_detected =
      if n = 0 then false else decide (30 < v0) := by
  have hv00 : (0 : ℚ) < v0 := by linarith
  induction n with
  | zero => simp [scanPrefix_zero, initScanState]
  | succ n ih =>
      rw [scanPrefix_succ, scanStep_eq]
      dsimp only
      rw [ih, desc3_max v0 v1 base h0 hb1 h12 h03 n]
      simp only [PERSON_TEMP_THRESHOLD, if_neg (by omega : ¬n + 1 = 0)]
      by_cases hn0 : n = 0
      · norm_num [hn0]
        first
        | exact fun _ => hv00
        | (rw [if_pos hv00]
           split_ifs with hc
           · rw [decide_eq_true hc]
           · rw [decide_eq_false hc])
      · simp only [if_neg hn0]
        by_cases hn1 : n = 1
        · norm_num [hn1]
          first
          | exact h12.le
          | exact fun hc => absurd hc (not_lt.mpr h12.le)
        · simp only [if_neg hn1]
          rw [if_neg (by linarith : ¬v0 < base)]

theorem scan_desc3 (v0 v1 base : ℚ) (h0 : 0 < base) (hb1 : base < v1)
    (h12 : v1 < v0) (h03 : v0 < 300) :
    scan (fun i => if i = 0 then v0 else if i = 1 then v1 else base) =
      { min_temp := base, max_temp := v0,
        max_pos := some (0, 0), person_detected := decide (30 < v0) } := by
  unfold scan
  rw [show SENSOR_WIDTH * SENSOR_HEIGHT = 768 from rfl]
  apply scanState_ext
  · rw [desc3_min v0 v1 base h0 hb1 h12 h03 768]
    norm_num
  · rw [desc3_max v0 v1 base h0 hb1 h12 h03 768]
    norm_num
  · rw [desc3_pos v0 v1 base h0 hb1 h12 h03 768]
    norm_num
  · rw [desc3_person v0 v1 base h0 hb1 h12 h03 768]
    norm_num

theorem decode_350 :
    ∀ i < 768, decodeTemp (encodeFrame vals350) i = if i = 100 then (350 : ℚ) else 25 := by
  intro i hi
  rw [encode_decode vals350 i hi (by unfold vals350; split_ifs <;> norm_num)]
  unfold vals350
  split_ifs <;> norm_num

theorem frameSpan_350 :
    frameSpan (encodeFrame vals350) =
      { min_temp := 25, max_temp := 300, max_pos := some (4, 3),
        person_detected := true } := by
  have h1 : scan (frameTemps (encodeFrame vals350)) =
      scan (fun i => if i = 100 then (350 : ℚ) else 25) := by
    unfold scan
    apply scanPrefix_congr
    rw [show SENSOR_WIDTH * SENSOR_HEIGHT = 768 from rfl]
    exact decode_350
  unfold frameSpan adjustSpan
  rw [h1, scan_oneHot 100 25 350 (by norm_num) (by norm_num) (by norm_num) (by norm_num)]
  norm_num

theorem gridCell_350 : gridCell (frameTemps (encodeFrame vals350)) 4 3 = 350 := by
  unfold gridCell frameTemps
  rw [show 3 * SENSOR_WIDTH + 4 = 100 from rfl, decode_350 100 (by norm_num)]
  norm_num

theorem decode_round :
    ∀ i < 768, decodeTemp (encodeFrame valsRound) i =
      if i = 0 then (26 : ℚ) else if i = 1 then 51 / 2 else 25 := by
  intro i hi
  rw [encode_decode valsRound i hi (by unfold valsRound; split_ifs <;> norm_num)]
  unfold valsRound
  split_ifs <;> norm_num

theorem frameSpan_round :
    frameSpan (encodeFrame valsRound) =
      { min_temp := 25, max_temp := 26, max_pos := some (0, 0),
        person_detected := false } := by
  have h1 : scan (frameTemps (encodeFrame valsRound)) =
      scan (fun i => if i = 0 then (26 : ℚ) else if i = 1 then 51 / 2 else 25) := by
    unfold scan
    apply scanPrefix_congr
    rw [show SENSOR_WIDTH * SENSOR_HEIGHT = 768 from rfl]
    exact decode_round
  unfold frameSpan adjustSpan
  rw [h1, scan_desc3 26 (51 / 2) 25 (by norm_num) (by norm_num) (by norm_num) (by norm_num)]
  norm_num

theorem gridCell_round : gridCell (frameTemps (encodeFrame valsRound)) 1 0 = 51 / 2 := by
  unfold gridCell frameTemps
  rw [show 0 * SENSOR_WIDTH + 1 = 1 from rfl, decode_round 1 (by norm_num)]
  norm_num

/-- Claim C6 counterexample: two accepted frames on which the written
grayscale value differs from the spec's clamped rounding.  On
`encodeFrame vals350` the hot cell (4, 3) is written as 301 — outside
[0, 255] — while the claimed formula gives 255 (clamping is missing).
On `encodeFrame valsRound` cell (1, 0) is written as 127 while the
claimed formula rounds 127.5 up to 128 (the code truncates). -/
theorem claim_C6_counterexample :
    (validate (encodeFrame vals350) = .Accepted ∧
      displayVal (encodeFrame vals350) 4 3 = 301 ∧
      specPixelVal (gridCell (frameTemps (encodeFrame vals350)) 4 3)
        (frameSpan (encodeFrame vals350)).min_temp
        (frameSpan (encodeFrame vals350)).max_temp = 255 ∧
      displayVal (encodeFrame vals350) 4 3 ≠
        specPixelVal (gridCell (frameTemps (encodeFrame vals350)) 4 3)
          (frameSpan (encodeFrame vals350)).min_temp
          (frameSpan (encodeFrame vals350)).max_temp) ∧
    (validate (encodeFrame valsRound) = .Accepted ∧
      displayVal (encodeFrame valsRound) 1 0 = 127 ∧
      specPixelVal (gridCell (frameTemps (encodeFrame valsRound)) 1 0)
        (frameSpan (encodeFrame valsRound)).min_temp
        (frameSpan (encodeFrame valsRound)).max_temp = 128 ∧
      displayVal (encodeFrame valsRound) 1 0 ≠
        specPixelVal (gridCell (frameTemps (encodeFrame valsRound)) 1 0)
          (frameSpan (encodeFrame valsRound)).min_temp
          (frameSpan (encodeFrame valsRound)).max_temp) := by
  have hd350 : displayVal (encodeFrame vals350) 4 3 = 301 := by
    unfold displayVal pixelVal
    rw [frameSpan_350, gridCell_350]
    rw [show ((350 : ℚ) - 25) /
        (({ min_temp := 25, max_temp := 300, max_pos := some (4, 3),
            person_detected := true } : ScanState).max_temp - 25) * 255 = 3315 / 11 by
      norm_num]
    rw [pyInt_eq_floor _ (by norm_num)]
    rw [Int.floor_eq_iff] <;> norm_num
  have hs350 : specPixelVal (gridCell (frameTemps (encodeFrame vals350)) 4 3)
      (frameSpan (encodeFrame vals350)).min_temp
      (frameSpan (encodeFrame vals350)).max_temp = 255 := by
    rw [frameSpan_350, gridCell_350]
    unfold specPixelVal
    rw [round_eq]
    rw [show (255 : ℚ) * (350 - 25) /
        (({ min_temp := 25, max_temp := 300, max_pos := some (4, 3),
            person_detected := true } : ScanState).max_temp - 25) + 1 / 2 = 6641 / 22 by
      norm_num]
    rw [show ⌊(6641 / 22 : ℚ)⌋ = 301 by rw [Int.floor_eq_iff] <;> norm_num]
    norm_num [min_def, max_def]
  have hdr : displayVal (encodeFrame valsRound) 1 0 = 127 := by
    unfold displayVal pixelVal
    rw [frameSpan_round, gridCell_round]
    rw [show ((51 / 2 : ℚ) - 25) /
        (({ min_temp := 25, max_temp := 26, max_pos := some (0, 0),
            person_detected := false } : ScanState).max_temp - 25) * 255 = 255 / 2 by
      norm_num]
    rw [pyInt_eq_floor _ (by norm_num)]
    rw [Int.floor_eq_iff] <;> norm_num
  have hsr : specPixelVal (gridCell (frameTemps (encodeFrame valsRound)) 1 0)
      (frameSpan (encodeFrame valsRound)).min_temp
      (frameSpan (encodeFrame valsRound)).max_temp = 128 := by
    rw [frameSpan_round, gridCell_round]
    unfold specPixelVal
    rw [round_eq]
    rw [show (255 : ℚ) * (51 / 2 - 25) /
        (({ min_temp := 25, max_temp := 26, max_pos := some (0, 0),
            person_detected := false } : ScanState).max_temp - 25) + 1 / 2 = 128 by
      norm_num]
    rw [show ⌊(128 : ℚ)⌋ = 128 by rw [Int.floor_eq_iff] <;> norm_num]
    norm_num [min_def, max_def]
  exact ⟨⟨encode_accepted _, hd350, hs350, by rw [hd350, hs350]; norm_num⟩,
    ⟨encode_accepted _, hdr, hsr, by rw [hdr, hsr]; norm_num⟩⟩

/-! ### Claim C2 -/

theorem getD_set_ne (l : List ℕ) (i j v : ℕ) (h : i ≠ j) :
    (l.set i v).getD j 0 = l.getD j 0 := by
  simp [List.getD, List.getElem?_set_ne h]

theorem getD_set_self (l : List ℕ) (i v : ℕ) (h : i < l.length) :
    (l.set i v).getD i 0 = v := by
  simp [List.getD, List.getElem?_set_self, h]

theorem flipBit_getD_ne (f : List ℕ) (k b j : ℕ) (h : k ≠ j) :
    (flipBit f k b).getD j 0 = f.getD j 0 :=
  getD_set_ne f k j _ h

theorem flipBit_getD_self (f : List ℕ) (k b : ℕ) (h : k < f.length) :
    (flipBit f k b).getD k 0 = f.getD k 0 ^^^ (1 <<< b) :=
  getD_set_self f k _ h

theorem xor_shift_ne (x b : ℕ) : x ^^^ (1 <<< b) ≠ x := by
  intro hx
  have hpow : (1 : ℕ) <<< b ≠ 0 := by
    rw [Nat.shiftLeft_eq]
    positivity
  have h2 : x ^^^ (x ^^^ (1 <<< b)) = x ^^^ x := by rw [hx]
  rw [← Nat.xor_assoc, Nat.xor_self, Nat.zero_xor] at h2
  exact hpow h2

theorem shift_lt_256 (b : ℕ) (hb : b < 8) : (1 : ℕ) <<< b < 2 ^ 8 := by
  rw [Nat.shiftLeft_eq, one_mul]
  exact Nat.pow_lt_pow_right (by norm_num) hb

/-- Claim C2 (amended): flipping any single bit of any byte in [0, 1542)
of an accepted frame, leaving the trailing checksum word unchanged,
always gets the frame rejected, but not always with ChecksumMismatch: a
flip inside [2, 1542) changes the 16-bit modular word sum and yields
Rejected(ChecksumMismatch), while a flip in one of the two header bytes
fails the header test — which runs first — and yields
Rejected(InvalidHeader). -/
theorem claim_C2 (f : List ℕ) (hlen : f.length = 1544)
    (hbytes : ∀ i < 1544, f.getD i 0 < 256)
    (hacc : validate f = .Accepted) (k b : ℕ) (hk : k < 1542) (hb : b < 8) :
    validate (flipBit f k b) =
      .Rejected (if k < 2 then .InvalidHeader else .ChecksumMismatch) := by
  obtain ⟨hh0, hh1, hcs⟩ := (validate_accepted_iff f).mp hacc
  by_cases hk2 : k < 2
  · rw [if_pos hk2]
    apply validate_reject_header
    rintro ⟨ha0, ha1⟩
    have hself := flipBit_getD_self f k b (by omega)
    have hk01 : k = 0 ∨ k = 1 := by omega
    rcases hk01 with rfl | rfl
    · rw [hself, hh0] at ha0
      exact xor_shift_ne START_FLAG b ha0
    · rw [hself, hh1] at ha1
      exact xor_shift_ne START_FLAG b ha1
  · rw [if_neg hk2]
    apply validate_reject_checksum
    · rw [flipBit_getD_ne f k b 0 (by omega)]
      exact hh0
    · rw [flipBit_getD_ne f k b 1 (by omega)]
      exact hh1
    · have hrecv : recvSum (flipBit f k b) = recvSum f := by
        unfold recvSum
        rw [flipBit_getD_ne f k b 1543 (by omega), flipBit_getD_ne f k b 1542 (by omega)]
      rw [hrecv, ← hcs]
      have hflip_lt : ∀ i, i < 1544 → (flipBit f k b).getD i 0 < 256 := by
        intro i hi
        by_cases hik : k = i
        · subst hik
          rw [flipBit_getD_self f k b (by omega)]
          exact Nat.xor_lt_two_pow (hbytes k (by omega)) (shift_lt_256 b hb)
        · rw [flipBit_getD_ne f k b i hik]
          exact hbytes i hi
      set j0 := k / 2 with hj0
      have hj0mem : j0 ∈ Finset.range 771 := Finset.mem_range.mpr (by omega)
      have hwords : ∀ j ∈ (Finset.range 771).erase j0,
          word16 (flipBit f k b) (2 * j) = word16 f (2 * j) := by
        intro j hj
        have hne := (Finset.mem_erase.mp hj).1
        unfold word16
        rw [flipBit_getD_ne f k b (2 * j) (by omega),
            flipBit_getD_ne f k b (2 * j + 1) (by omega)]
      have hwne : word16 (flipBit f k b) (2 * j0) ≠ word16 f (2 * j0) := by
        rw [word16_eq _ _ (hflip_lt _ (by omega)), word16_eq f _ (hbytes _ (by omega))]
        unfold fromBytesLE2
        have hk_cases : k = 2 * j0 ∨ k = 2 * j0 + 1 := by omega
        rcases hk_cases with hke | hko
        · rw [← hke, flipBit_getD_self f k b (by omega),
              flipBit_getD_ne f k b (k + 1) (by omega)]
          have hxne := xor_shift_ne (f.getD k 0) b
          omega
        · rw [← hko, flipBit_getD_self f k b (by omega),
              flipBit_getD_ne f k b (2 * j0) (by omega)]
          have hxne := xor_shift_ne (f.getD k 0) b
          omega
      have hW1 : word16 (flipBit f k b) (2 * j0) < 65536 := by
        rw [word16_eq _ _ (hflip_lt _ (by omega))]
        unfold fromBytesLE2
        have h1 := hflip_lt (2 * j0) (by omega)
        have h2 := hflip_lt (2 * j0 + 1) (by omega)
        omega
      have hW2 : word16 f (2 * j0) < 65536 := by
        rw [word16_eq f _ (hbytes _ (by omega))]
        unfold fromBytesLE2
        have h1 := hbytes (2 * j0) (by omega)
        have h2 := hbytes (2 * j0 + 1) (by omega)
        omega
      intro heq
      rw [checksum_eq_sum, checksum_eq_sum] at heq
      rw [← Finset.add_sum_erase _ (fun j => word16 (flipBit f k b) (2 * j)) hj0mem,
          ← Finset.add_sum_erase _ (fun j => word16 f (2 * j)) hj0mem,
          Finset.sum_congr rfl hwords] at heq
      have hmod : word16 (flipBit f k b) (2 * j0) % 65536 = word16 f (2 * j0) % 65536 :=
        Nat.ModEq.add_right_cancel' _ heq
      rw [Nat.mod_eq_of_lt hW1, Nat.mod_eq_of_lt hW2] at hmod
      exact hwne hmod

theorem claim_C2_witness :
    (encodeFrame valsConst).length = 1544 ∧
      (∀ i < 1544, (encodeFrame valsConst).getD i 0 < 256) ∧
      validate (encodeFrame valsConst) = .Accepted ∧ 5 < 1542 ∧ 0 < 8 ∧
      validate (flipBit (encodeFrame valsConst) 5 0) =
        .Rejected (if 5 < 2 then .InvalidHeader else .ChecksumMismatch) :=
  ⟨encodeFrame_length valsConst, fun i hi => encodeFrame_bytes valsConst i hi,
   encode_accepted valsConst, by norm_num, by norm_num,
   claim_C2 (encodeFrame valsConst) (encodeFrame_length valsConst)
     (fun i hi => encodeFrame_bytes valsConst i hi) (encode_accepted valsConst)
     5 0 (by norm_num) (by norm_num)⟩

/-- Claim C2 counterexample: flipping bit 0 of header byte 0 of an
accepted frame produces a frame rejected as InvalidHeader, not
ChecksumMismatch as the claim states for every byte of [0, 1542). -/
theorem claim_C2_counterexample :
    validate (encodeFrame valsConst) = .Accepted ∧
      validate (flipBit (encodeFrame valsConst) 0 0) = .Rejected .InvalidHeader ∧
      validate (flipBit (encodeFrame valsConst) 0 0) ≠ .Rejected .ChecksumMismatch := by
  have h2 : validate (flipBit (encodeFrame valsConst) 0 0) = .Rejected .InvalidHeader := by
    apply validate_reject_header
    rintro ⟨ha, -⟩
    rw [flipBit_getD_self _ _ _ (by rw [encodeFrame_length]; norm_num),
        encodeFrame_getD_lt valsConst 0 (by norm_num)] at ha
    exact absurd ha (by decide)
  exact ⟨encode_accepted valsConst, h2, by rw [h2]; decide⟩

end ThermalSeatFinder
